import Mathlib

/-! # Verification of the laser-controller serial protocol core

Shallow embedding of `protocol/frame_codec.py`, `protocol/reply_parser.py`,
`domain/value_mapper.py`, `pipeline/data_collector.py` and the ack-waiting
loop of `transport/serial_interface.py`.

Python strings (and the ASCII byte strings the codec produces) are modeled
as lists of Unicode code points (`List Nat`).  Values the Python code
handles as `float` are modeled as exact rationals; IEEE-754
rounding/overflow is not modeled, which does not affect the properties
below (they concern parse success/failure, field order, checksums and the
division-by-zero guard, not rounding). -/

/-- Python strings are modeled as lists of Unicode code points. -/
abbrev PyStr := List Nat

/-- Embed a Lean string literal as a code-point list. -/
def str (s : String) : PyStr := s.toList.map Char.toNat

/-- The whitespace set of Python `str.strip()` / `str.split()` / regex `\s`
restricted to ASCII (space, tab, LF, VT, FF, CR). -/
def isPySpace (c : Nat) : Bool :=
  c == 32 || c == 9 || c == 10 || c == 11 || c == 12 || c == 13

/-- Python `str.strip()`. -/
def pyStrip (s : PyStr) : PyStr :=
  ((s.dropWhile isPySpace).reverse.dropWhile isPySpace).reverse

/-- Python `str.startswith(p)`. -/
def pyStartsWith (p s : PyStr) : Bool := List.isPrefixOf p s

/-- Python `str.upper()` on an ASCII character (the protocol is ASCII). -/
def pyUpperChar (c : Nat) : Nat := if 97 ≤ c ∧ c ≤ 122 then c - 32 else c

/-- Python `str.upper()` (ASCII scope). -/
def pyUpper (s : PyStr) : PyStr := s.map pyUpperChar

/-- Python `str.lower()` on an ASCII character. -/
def pyLowerChar (c : Nat) : Nat := if 65 ≤ c ∧ c ≤ 90 then c + 32 else c

/-- Python `str.lower()` (ASCII scope). -/
def pyLower (s : PyStr) : PyStr := s.map pyLowerChar

/-- Worker for `pySplitWs`; `acc` holds the current token reversed. -/
def pySplitWsAux : PyStr → PyStr → List PyStr
  | [], acc => if acc.isEmpty then [] else [acc.reverse]
  | c :: rest, acc =>
    if isPySpace c then
      if acc.isEmpty then pySplitWsAux rest [] else acc.reverse :: pySplitWsAux rest []
    else pySplitWsAux rest (c :: acc)

/-- Python `str.split()` with no argument: split on runs of whitespace,
discarding empty tokens. -/
def pySplitWs (s : PyStr) : List PyStr := pySplitWsAux s []

/-- Hex digit value of a character: `0-9`, `a-f`, `A-F`. -/
def hexDigit? (c : Nat) : Option Nat :=
  if 48 ≤ c ∧ c ≤ 57 then some (c - 48)
  else if 97 ≤ c ∧ c ≤ 102 then some (c - 87)
  else if 65 ≤ c ∧ c ≤ 70 then some (c - 55)
  else none

/-- Is the character a hex digit (either case)? -/
def isHexAny (c : Nat) : Bool := (hexDigit? c).isSome

/-- Value of an all-hex-digit string (total; non-hex characters count 0).
Used only where the surrounding code has already established hex-ness. -/
def hexNat (s : PyStr) : Nat := s.foldl (fun a c => a * 16 + (hexDigit? c).getD 0) 0

/-- Continuation of the hex-digit run of `int(s, 16)`: single underscores
are allowed between digits. -/
def hexTail (acc : Nat) : PyStr → Option Nat
  | [] => some acc
  | c :: rest =>
    if c = 95 then
      match rest with
      | [] => none
      | c2 :: rest2 =>
        match hexDigit? c2 with
        | some d => hexTail (acc * 16 + d) rest2
        | none => none
    else
      match hexDigit? c with
      | some d => hexTail (acc * 16 + d) rest
      | none => none

/-- The digit run of `int(s, 16)`: must start with a hex digit. -/
def hexCore : PyStr → Option Nat
  | [] => none
  | c :: rest =>
    match hexDigit? c with
    | some d => hexTail d rest
    | none => none

/-- Optional leading sign of an `int`/`float` literal. -/
def pySignSplit (t : PyStr) : Bool × PyStr :=
  match t with
  | [] => (false, [])
  | c :: r =>
    if c = 43 then (false, r)
    else if c = 45 then (true, r)
    else (false, c :: r)

/-- Unsigned part of `int(s, 16)`: optional `0x`/`0X` prefix (one
underscore may follow the prefix), then the digit run. -/
def pyIntHexCore (u : PyStr) : Option Nat :=
  match u with
  | c :: x :: rest =>
    if c = 48 ∧ (x = 120 ∨ x = 88) then
      match rest with
      | [] => none
      | c2 :: r2 => if c2 = 95 then hexCore r2 else hexCore (c2 :: r2)
    else hexCore (c :: x :: rest)
  | u => hexCore u

/-- Python `int(s, 16)`: strips whitespace, allows an optional sign and an
optional `0x`/`0X` prefix. -/
def pyIntHex (s : PyStr) : Option Int :=
  let p := pySignSplit (pyStrip s)
  (pyIntHexCore p.2).map fun n => if p.1 then -(n : Int) else (n : Int)

/-- Upper-case hex digit character for a value < 16. -/
def hexDigitUpper (d : Nat) : Nat := if d < 10 then 48 + d else 55 + d

/-- Python `f"{n:02X}"` for `n < 256` (every use site reduces mod 256). -/
def toHex2 (n : Nat) : PyStr := [hexDigitUpper (n / 16), hexDigitUpper (n % 16)]

/-- A character other than CR and LF (regex `[^\r\n]`). -/
def isNotCRLF (c : Nat) : Bool := !(c == 13) && !(c == 10)

/-- An ASCII code point (`encode/decode("ascii", errors="ignore")` keeps
exactly these). -/
def isAsciiByte (c : Nat) : Bool := decide (c < 128)

/-- Embedding of `is_framed_command` (frame_codec.py): full match of `^\$[^\r\n]*\r\n$`. -/
def is_framed_command : PyStr → Bool
  | 36 :: rest =>
    decide (2 ≤ rest.length) &&
      (rest.drop (rest.length - 2) == [13, 10]) &&
      (rest.take (rest.length - 2)).all isNotCRLF
  | _ => false

/-- Embedding of `default_checksum_hex_2` (frame_codec.py): decode the byte string as
ASCII dropping non-ASCII values, drop `'$'` plus the 2-char command id,
sum the character codes modulo 256, render as 2 upper-case hex digits. -/
def default_checksum_hex_2 (frame_without_checksum : PyStr) : PyStr :=
  let s := frame_without_checksum.filter isAsciiByte
  let data_portion := s.drop 3
  toHex2 (data_portion.sum % 256)

instance {ε α : Type} [DecidableEq ε] [DecidableEq α] : DecidableEq (Except ε α)
  | .ok a, .ok b => if h : a = b then .isTrue (by rw [h]) else .isFalse (by simp [h])
  | .ok _, .error _ => .isFalse (by simp)
  | .error _, .ok _ => .isFalse (by simp)
  | .error a, .error b => if h : a = b then .isTrue (by rw [h]) else .isFalse (by simp [h])

/-- Error cases of `compose_frame` (both are `ValueError`s in the source). -/
inductive ComposeErr where
  | badCommandId
  | badChecksum
deriving DecidableEq, Repr

/-- The check `re.fullmatch` of two upper-case hex digits. -/
def isHex2Upper (s : PyStr) : Bool :=
  s.length == 2 && s.all fun c => (48 ≤ c && c ≤ 57) || (65 ≤ c && c ≤ 70)

/-- Embedding of `compose_frame` (frame_codec.py). -/
def compose_frame (command_id_hex2 : PyStr) (data : PyStr)
    (checksum_fn : PyStr → PyStr) : Except ComposeErr PyStr :=
  let cid := pyUpper (pyStrip command_id_hex2)
  if ¬ isHex2Upper cid then .error .badCommandId
  else
    let payload0 := if pyStartsWith (str ("$")) data then data.drop 1 else data
    let payload := payload0.filter isNotCRLF
    let frame_wo_checksum := ((36 :: cid) ++ payload).filter isAsciiByte
    let checksum := pyUpper (pyStrip (checksum_fn frame_wo_checksum))
    if ¬ isHex2Upper checksum then .error .badChecksum
    else .ok (frame_wo_checksum ++ checksum ++ [13, 10])

/-- The checksum-covered (accumulated-buffer) region of the frame that
`compose_frame cid data` emits: `data` with a single leading `$` stripped,
all CR/LF removed, and non-ASCII code points dropped by the ASCII encode.
This can itself begin with `$` (e.g. `data = "$$A"` yields region `"$A"`). -/
def composePayload (data : PyStr) : PyStr :=
  ((if pyStartsWith (str ("$")) data then data.drop 1 else data).filter
    isNotCRLF).filter isAsciiByte

/-- Error cases of `parse_reply` (all `ValueError`s in the source, tagged
here by their distinct messages). -/
inductive FrameErr where
  | notFramed
  | tooShort
  | badExtFormat
  | badExtId
  | badCmdId
  | badChecksumFormat
  | checksumMismatch (calculated : Nat) (received : Int)
deriving DecidableEq, Repr

/-- Embedding of `parse_reply` (frame_codec.py). -/
def parse_reply (packet : PyStr) : Except FrameErr (Int × PyStr) :=
  if ¬ is_framed_command packet then .error .notFramed
  else
    let pkt := packet.dropLast.dropLast
    if pkt.length < 5 then .error .tooShort
    else
      let cmd_str := (pkt.drop 1).take 2
      let received_checksum_str := pkt.drop (pkt.length - 2)
      let step : Except FrameErr (Int × PyStr) :=
        if cmd_str = str ("FF") then
          if pkt.length < 10 then .error .badExtFormat
          else
            let cmd_hex4 := (pkt.drop 3).take 4
            match pyIntHex cmd_hex4 with
            | none => .error .badExtId
            | some cmd_id => .ok (cmd_id, cmd_hex4 ++ (pkt.drop 7).dropLast.dropLast)
        else
          match pyIntHex cmd_str with
          | none => .error .badCmdId
          | some cmd_id => .ok (cmd_id, (pkt.drop 3).dropLast.dropLast)
      match step with
      | .error e => .error e
      | .ok (cmd_id, accumulated) =>
        let calculated := accumulated.sum % 256
        match pyIntHex received_checksum_str with
        | none => .error .badChecksumFormat
        | some received =>
          if (calculated : Int) = received then .ok (cmd_id, accumulated)
          else .error (.checksumMismatch calculated received)

/-- Result of Python `float(s)`.  Finite values are exact rationals. -/
inductive PyFloatVal where
  | finite (q : ℚ)
  | infv (neg : Bool)
  | nan
deriving DecidableEq, Repr

/-- Decimal digit value. -/
def decDigit? (c : Nat) : Option Nat :=
  if 48 ≤ c ∧ c ≤ 57 then some (c - 48) else none

/-- Continuation of a decimal digit run (single underscores allowed
between digits); returns value and number of digits. -/
def decTail (acc cnt : Nat) : PyStr → Option (Nat × Nat)
  | [] => some (acc, cnt)
  | c :: rest =>
    if c = 95 then
      match rest with
      | [] => none
      | c2 :: rest2 =>
        match decDigit? c2 with
        | some d => decTail (acc * 10 + d) (cnt + 1) rest2
        | none => none
    else
      match decDigit? c with
      | some d => decTail (acc * 10 + d) (cnt + 1) rest
      | none => none

/-- A decimal digit run: nonempty, must start with a digit. -/
def decCore : PyStr → Option (Nat × Nat)
  | [] => none
  | c :: rest =>
    match decDigit? c with
    | some d => decTail d 1 rest
    | none => none

/-- Split a list at the first element satisfying `p` (separator dropped). -/
def splitAtFirst (p : Nat → Bool) : PyStr → Option (PyStr × PyStr)
  | [] => none
  | c :: rest =>
    if p c then some ([], rest)
    else (splitAtFirst p rest).map fun q => (c :: q.1, q.2)

/-- Python `float(s)`: strip, optional sign, `inf`/`infinity`/`nan`
(case-insensitive) or a decimal literal `digits[.digits][e[sign]digits]`
(also `.digits`), with single underscores allowed between digits. -/
def pyFloat? (s : PyStr) : Option PyFloatVal :=
  let t := pyStrip s
  let signSplit : Bool × PyStr :=
    match t with
    | 43 :: r => (false, r)
    | 45 :: r => (true, r)
    | _ => (false, t)
  let neg := signSplit.1
  let u := signSplit.2
  let low := pyLower u
  if low = str ("inf") ∨ low = str ("infinity") then some (.infv neg)
  else if low = str ("nan") then some .nan
  else
    let eSplit : PyStr × Option PyStr :=
      match splitAtFirst (fun c => c == 101 || c == 69) u with
      | some (m, e) => (m, some e)
      | none => (u, none)
    let mant := eSplit.1
    let mv : Option ℚ :=
      match splitAtFirst (fun c => c == 46) mant with
      | some ([], []) => none
      | some ([], fp) => (decCore fp).map fun q => (q.1 : ℚ) / (10 : ℚ) ^ q.2
      | some (ip, []) => (decCore ip).map fun q => (q.1 : ℚ)
      | some (ip, fp) =>
        match decCore ip, decCore fp with
        | some qi, some qf => some ((qi.1 : ℚ) + (qf.1 : ℚ) / (10 : ℚ) ^ qf.2)
        | _, _ => none
      | none => (decCore mant).map fun q => (q.1 : ℚ)
    match mv with
    | none => none
    | some m =>
      match eSplit.2 with
      | none => some (.finite (if neg then -m else m))
      | some ex =>
        let exSplit : Bool × PyStr :=
          match ex with
          | 43 :: r => (false, r)
          | 45 :: r => (true, r)
          | _ => (false, ex)
        match decCore exSplit.2 with
        | none => none
        | some qe =>
          let q := if exSplit.1 then m / (10 : ℚ) ^ qe.1 else m * (10 : ℚ) ^ qe.1
          some (.finite (if neg then -q else q))

/-- The finite value of a parsed float.  The telemetry value character
class `[0-9.eE+-]` cannot spell `inf`/`nan`, so at those call sites the
non-finite branches are unreachable. -/
def finiteVal : PyFloatVal → ℚ
  | .finite q => q
  | .infv _ => 0
  | .nan => 0

/-- Error cases of `parse_pid_reply` (`ValueError`s, tagged by message). -/
inductive PidErr where
  | badFrame
  | notB6
  | tooShort
  | badChecksumLiteral
  | checksumMismatch (calculated : Nat) (received : Int)
  | fieldCount (n : Nat)
  | fieldFormat
deriving DecidableEq, Repr

/-- The 8 named PID fields, in the document order of the reply. -/
structure PidParams where
  pw_kp : PyFloatVal
  pw_ki : PyFloatVal
  pw_kd : PyFloatVal
  pp_kp : PyFloatVal
  pp_ki : PyFloatVal
  pp_kd : PyFloatVal
  holdoff : PyFloatVal
  sample_interval : PyFloatVal
deriving DecidableEq, Repr

/-- The comprehension `[f.strip() for f in data_portion.split() if
f.strip()]`: whitespace tokenization discarding empty tokens. -/
def pidTokens (data_portion : PyStr) : List PyStr :=
  ((pySplitWs data_portion).filter fun f => ¬ (pyStrip f).isEmpty).map pyStrip

/-- The field-decoding tail of `parse_pid_reply`: exactly 8 tokens, each a
`float()` literal, assigned to the named fields in document order; a wrong
count is a field-count error, a bad literal a field-format error. -/
def pidDecodeFields (fields : List PyStr) : Except PidErr PidParams :=
  match fields with
  | [f0, f1, f2, f3, f4, f5, f6, f7] =>
    match pyFloat? f0, pyFloat? f1, pyFloat? f2, pyFloat? f3,
        pyFloat? f4, pyFloat? f5, pyFloat? f6, pyFloat? f7 with
    | some v0, some v1, some v2, some v3, some v4, some v5, some v6, some v7 =>
      .ok ⟨v0, v1, v2, v3, v4, v5, v6, v7⟩
    | _, _, _, _, _, _, _, _ => .error .fieldFormat
  | _ => .error (.fieldCount fields.length)

/-- Embedding of `parse_pid_reply` (reply_parser.py). -/
def parse_pid_reply (packet : PyStr) : Except PidErr PidParams :=
  if ¬ is_framed_command packet then .error .badFrame
  else
    let pkt := packet.dropLast.dropLast
    if ¬ pyStartsWith (str ("$B6")) pkt then .error .notB6
    else if pkt.length < 10 then .error .tooShort
    else
      let received_checksum_str := pkt.drop (pkt.length - 2)
      let data_portion := (pkt.drop 3).dropLast.dropLast
      let calculated_checksum := data_portion.sum % 256
      match pyIntHex received_checksum_str with
      | none => .error .badChecksumLiteral
      | some received =>
        if (calculated_checksum : Int) ≠ received then
          .error (.checksumMismatch calculated_checksum received)
        else pidDecodeFields (pidTokens data_portion)

/-- Embedding of `parse_ack` (reply_parser.py). -/
def parse_ack (line : PyStr) : Bool × PyStr :=
  let s := pyStrip line
  if ¬ pyStartsWith (str ("*")) s ∨ s.length < 3 then (false, [])
  else
    let code := (s.drop 1).take 2
    (code == str ("00"), code)

/-- The only exception `parse_telemetry_line` can raise: a `ValueError`
from `float()` on a regex-matched numeric token. -/
inductive TeleErr where
  | floatValue (tok : PyStr)
deriving DecidableEq, Repr

/-- Decoded telemetry record (the two dict shapes of reply_parser.py). -/
inductive Telemetry where
  | direct (t y u : ℚ) (status : PyStr)
  | power (t : Option ℚ) (initial_power current_power pulse_width pulse_period : ℚ)
      (status : PyStr)
deriving DecidableEq, Repr

/-- Anchored match of `DEBUG_B0_RE`: `^\$B0` + 4 colon-separated groups of
8 hex digits + 2 hex digits + `$` (a full 40-character match; the input is
already stripped so `$` cannot match before a trailing newline).  Returns
the integer values of the five groups. -/
def b0Match (s : PyStr) : Option (Nat × Nat × Nat × Nat × Nat) :=
  if s.length = 40 ∧ pyStartsWith (str ("$B0")) s then
    let a := (s.drop 3).take 8
    let b := (s.drop 12).take 8
    let c := (s.drop 21).take 8
    let d := (s.drop 30).take 8
    let x := s.drop 38
    if (s.drop 11).take 1 = [58] ∧ (s.drop 20).take 1 = [58] ∧ (s.drop 29).take 1 = [58]
        ∧ (a ++ b ++ c ++ d ++ x).all isHexAny then
      some (hexNat a, hexNat b, hexNat c, hexNat d, hexNat x)
    else none
  else none

/-- Maximal nonempty run of characters in a class (regex `[...]+`). -/
def matchClassPlus (p : Nat → Bool) (s : PyStr) : Option (PyStr × PyStr) :=
  let run := s.takeWhile p
  if run.isEmpty then none else some (run, s.drop run.length)

/-- Match a literal at the head. -/
def litP (pat s : PyStr) : Option PyStr :=
  if pyStartsWith pat s then some (s.drop pat.length) else none

/-- The class `[0-9.]` of the `t=` group. -/
def isNumDot (c : Nat) : Bool := (48 ≤ c && c ≤ 57) || c == 46

/-- The class `[0-9.eE+-]` of the numeric value groups. -/
def isValChar (c : Nat) : Bool :=
  (48 ≤ c && c ≤ 57) || c == 46 || c == 101 || c == 69 || c == 43 || c == 45

/-- The class `[A-Z]` of the status group. -/
def isUpperAlpha (c : Nat) : Bool := 65 ≤ c && c ≤ 90

/-- The class `[A-Za-z_]` of the key/value keys. -/
def isKeyChar (c : Nat) : Bool :=
  (65 ≤ c && c ≤ 90) || (97 ≤ c && c ≤ 122) || c == 95

/-- Regex `\s+`. -/
def wsPlus (s : PyStr) : Option PyStr := (matchClassPlus isPySpace s).map (·.2)

/-- One attempted match of `DATA_RE` at the start of `s`.  Every character
class of this pattern is disjoint from `\s` and from the first character
of the literal that follows it, so the greedy `+` runs are maximal with no
backtracking; the optional `(?:\s+sp=...)?` group is tried as a whole and
dropped as a whole, in the regex engine's order. -/
def dataMatchAt (s : PyStr) : Option (PyStr × PyStr × PyStr × PyStr) := do
  let s1 ← litP (str ("t=")) s
  let (tv, s2) ← matchClassPlus isNumDot s1
  let s3 ← wsPlus s2
  let s4 ← litP (str ("y=")) s3
  let (yv, s5) ← matchClassPlus isValChar s4
  let s6 :=
    match do
        let w ← wsPlus s5
        let r ← litP (str ("sp=")) w
        let (_sp, r2) ← matchClassPlus isValChar r
        pure r2 with
    | some r2 => r2
    | none => s5
  let s7 ← wsPlus s6
  let s8 ← litP (str ("u=")) s7
  let (uv, s9) ← matchClassPlus isValChar s8
  let s10 ← wsPlus s9
  let s11 ← litP (str ("status=")) s10
  let (st, _rest) ← matchClassPlus isUpperAlpha s11
  pure (tv, yv, uv, st)

/-- Search of `DATA_RE`: try the pattern at each start position. -/
def dataSearch : PyStr → Option (PyStr × PyStr × PyStr × PyStr)
  | [] => none
  | c :: rest =>
    match dataMatchAt (c :: rest) with
    | some r => some r
    | none => dataSearch rest

/-- One attempted match of `KV_RE` at the start of `s`: a maximal run of
key characters, `=`, a maximal run of value characters (the greedy key run
can only be followed by `=` at its maximal extent, so no backtracking). -/
def kvMatchAt (s : PyStr) : Option (PyStr × PyStr × PyStr) := do
  let (k, s1) ← matchClassPlus isKeyChar s
  let s2 ← litP (str ("=")) s1
  let (v, s3) ← matchClassPlus isValChar s2
  pure (k, v, s3)

/-- Scan of `KV_RE.findall`: scan left to right, resuming after each match, else
advancing one character.  Fuel is the string length (≥ 1 char consumed per
step). -/
def kvFindallAux : Nat → PyStr → List (PyStr × PyStr)
  | 0, _ => []
  | _, [] => []
  | fuel + 1, s@(_ :: rest) =>
    match kvMatchAt s with
    | some (k, v, s') => (k, v) :: kvFindallAux fuel s'
    | none => kvFindallAux fuel rest

/-- Embedding of `KV_RE.findall(s)`. -/
def kvFindall (s : PyStr) : List (PyStr × PyStr) := kvFindallAux s.length s

/-- The dict comprehension `{k.strip().lower(): float(v) for k, v in
KV_RE.findall(s)}`: the bindings in order (later duplicates override via
`kvGet`), raising on the first `float()` failure. -/
def kvEval : List (PyStr × PyStr) → Except TeleErr (List (PyStr × ℚ))
  | [] => .ok []
  | (k, v) :: rest =>
    match pyFloat? v with
    | none => .error (.floatValue v)
    | some w =>
      match kvEval rest with
      | .error e => .error e
      | .ok kvs => .ok ((pyLower (pyStrip k), finiteVal w) :: kvs)

/-- Python dict lookup over the ordered binding list: last write wins. -/
def kvGet (kv : List (PyStr × ℚ)) (key : PyStr) : Option ℚ :=
  ((kv.filter fun q => q.1 == key).getLast?).map (·.2)

/-- The helper `first(keys)` of the key/value branch. -/
def firstKey (kv : List (PyStr × ℚ)) (keys : List PyStr) : Option ℚ :=
  keys.findSome? (kvGet kv)

/-- Embedding of `parse_telemetry_line` (reply_parser.py).  `.ok none` is Python's
`None` ("not telemetry"); `.error` is an uncaught `ValueError` raised by
`float()` on a matched token. -/
def parse_telemetry_line (line : PyStr) : Except TeleErr (Option Telemetry) :=
  let s := pyStrip line
  if s.isEmpty then .ok none
  else
    match b0Match s with
    | some (a, b, c, d, rx) =>
      let payload := (s.drop 3).dropLast.dropLast
      let calcCk := payload.sum % 256
      if calcCk ≠ rx then .ok none
      else .ok (some (.power none (a : ℚ) (b : ℚ) (c : ℚ) (d : ℚ) (str ("RUNNING"))))
    | none =>
      let dm := if pyStartsWith (str ("DATA")) s then dataSearch s else none
      match dm with
      | some (tv, yv, uv, st) =>
        match pyFloat? tv with
        | none => .error (.floatValue tv)
        | some tw =>
          match pyFloat? yv with
          | none => .error (.floatValue yv)
          | some yw =>
            match pyFloat? uv with
            | none => .error (.floatValue uv)
            | some uw => .ok (some (.direct (finiteVal tw) (finiteVal yw) (finiteVal uw) st))
      | none =>
        match kvEval (kvFindall s) with
        | .error e => .error e
        | .ok kv =>
          let initial_power := firstKey kv
            [str ("initial_power"), str ("initial"), str ("init_power"), str ("ip"), str ("p0")]
          let current_power := firstKey kv
            [str ("current_power"), str ("current"), str ("cur_power"), str ("cp"), str ("p")]
          let pulse_period := firstKey kv [str ("pulse_period"), str ("period"), str ("pp")]
          let pulse_width := firstKey kv [str ("pulse_width"), str ("width"), str ("pw")]
          let t_val := firstKey kv [str ("t"), str ("time"), str ("time_s")]
          match initial_power, current_power, pulse_period, pulse_width with
          | some ip, some cp, some pp, some pw =>
            .ok (some (.power t_val ip cp pw pp (str ("RUNNING"))))
          | _, _, _, _ => .ok none

/-- The power-packet-only keys of the mapped record. -/
structure PowerExtras where
  initial_power : ℚ
  current_power : ℚ
  pulse_period : ℚ
  pulse_width : ℚ
  duty_cycle : ℚ
deriving DecidableEq, Repr

/-- The mapped engineering-value record of `map_telemetry_values`. -/
structure Mapped where
  time_s : Option ℚ
  process_value : ℚ
  control_output : ℚ
  status : PyStr
  extras : Option PowerExtras
deriving DecidableEq, Repr

/-- Embedding of `map_telemetry_values` (domain/value_mapper.py). -/
def map_telemetry_values : Telemetry → Mapped
  | .power t ip cp pw pp st =>
    let duty_cycle := if pp > 0 then pw / pp else 0
    let process_value := cp * duty_cycle
    ⟨t, process_value, pw, st, some ⟨ip, cp, pp, pw, duty_cycle⟩⟩
  | .direct t y u st => ⟨some t, y, u, st, none⟩

/-- Outcome of a `collect_trial_data` run. -/
inductive TrialResult where
  | finished (t_vals y_vals u_vals : List ℚ) (status_vals : List PyStr)
  | deviceError (line : PyStr)
  | uncaught (e : TeleErr)
  | starved
deriving DecidableEq, Repr

/-- The loop of `collect_trial_data` (pipeline/data_collector.py) run with
no `duration_s` budget: the wall-clock branch and the per-read
`TimeoutError`-and-retry are real-time behavior outside the embedding.
The event list models the successive results of `io.read_line`;
exhausting it models a stream that never terminates (`starved`).  The
`on_done` callback is a side-effecting observer and is not modeled.
`deviceError` is the `raise RuntimeError(line_s)` exit — note it carries
only the line, not the accumulated sample lists. -/
def collectLoop (sample_interval_s : Option ℚ) (stop_on_done : Bool)
    (t_vals y_vals u_vals : List ℚ) (status_vals : List PyStr) (sample_idx : Nat) :
    List PyStr → TrialResult
  | [] => .starved
  | line :: rest =>
    let line_s := pyStrip line
    match parse_telemetry_line line_s with
    | .error e => .uncaught e
    | .ok (some telemetry) =>
      let mapped := map_telemetry_values telemetry
      let t_val : ℚ :=
        match mapped.time_s with
        | some t => t
        | none =>
          match sample_interval_s with
          | some si => if si > 0 then (sample_idx : ℚ) * si else (sample_idx : ℚ)
          | none => (sample_idx : ℚ)
      collectLoop sample_interval_s stop_on_done (t_vals ++ [t_val])
        (y_vals ++ [mapped.process_value]) (u_vals ++ [mapped.control_output])
        (status_vals ++ [mapped.status]) (sample_idx + 1) rest
    | .ok none =>
      if pyStartsWith (str ("OK DONE")) line_s then
        if stop_on_done then .finished t_vals y_vals u_vals status_vals
        else collectLoop sample_interval_s stop_on_done t_vals y_vals u_vals
          status_vals sample_idx rest
      else if pyStartsWith (str ("ERR")) line_s then .deviceError line_s
      else collectLoop sample_interval_s stop_on_done t_vals y_vals u_vals
        status_vals sample_idx rest

/-- Embedding of `collect_trial_data` (pipeline/data_collector.py), no duration budget. -/
def collect_trial_data (lines : List PyStr) (sample_interval_s : Option ℚ)
    (stop_on_done : Bool) : TrialResult :=
  collectLoop sample_interval_s stop_on_done [] [] [] [] 0 lines

/-- Outcome of the ack wait of `write_command_expect_ok_ack`. -/
inductive AckResult where
  | okAck (line : PyStr)
  | rejected (line : PyStr)
  | timedOut
deriving DecidableEq, Repr

/-- The ack-wait loop of `write_command_expect_ok_ack`
(transport/serial_interface.py).  Sending the framed command is a
transport side effect before the loop; the event list models successive
`read_line` results, and its exhaustion models the deadline expiring
(`TimeoutError`, which the loop does not catch).  `rejected` is the
`raise RuntimeError(f"Command failed with ACK: {line}")` exit. -/
def write_command_expect_ok_ack : List PyStr → AckResult
  | [] => .timedOut
  | line :: rest =>
    let a := parse_ack line
    if ¬ pyStartsWith (str ("*")) line then write_command_expect_ok_ack rest
    else if a.1 then .okAck line
    else .rejected line

/-! ## Helper lemmas -/

lemma list_dropLast_two (l m : List Nat) (h : m.length = 2) :
    (l ++ m).dropLast.dropLast = l := by
  match m, h with
  | [a, b], _ =>
    have h1 : l ++ [a, b] = (l ++ [a]) ++ [b] := by simp
    rw [h1, List.dropLast_concat, List.dropLast_concat]

lemma list_drop_sub_two (l m : List Nat) (h : m.length = 2) :
    (l ++ m).drop ((l ++ m).length - 2) = m := by
  have h2 : (l ++ m).length - 2 = l.length := by simp [h]
  rw [h2, List.drop_left]

lemma list_set_append (l r : List Nat) (n a : Nat) :
    (l ++ r).set (l.length + n) a = l ++ r.set n a := by
  induction l with
  | nil => simp
  | cons x xs ih => simp [List.set, Nat.succ_add, ih]

lemma list_set_mid (l₁ l₂ : List Nat) (c c' : Nat) :
    (l₁ ++ c :: l₂).set l₁.length c' = l₁ ++ c' :: l₂ := by
  have := list_set_append l₁ (c :: l₂) 0 c'
  simpa using this

lemma list_map_fix (l : List Nat) (f : Nat → Nat) (h : ∀ a ∈ l, f a = a) :
    l.map f = l := by
  induction l with
  | nil => rfl
  | cons x xs ih =>
    simp only [List.map_cons, h x (by simp)]
    rw [ih fun a ha => h a (by simp [ha])]

lemma dropWhile_all_neg (p : Nat → Bool) (s : List Nat) (h : ∀ a ∈ s, p a = false) :
    s.dropWhile p = s := by
  cases s with
  | nil => rfl
  | cons c rest => rw [List.dropWhile_cons, if_neg (by simp [h c (by simp)])]

lemma pyStrip_eq_self (s : PyStr) (h : ∀ a ∈ s, isPySpace a = false) :
    pyStrip s = s := by
  unfold pyStrip
  rw [dropWhile_all_neg _ _ h, dropWhile_all_neg _ _ (by simpa using h),
    List.reverse_reverse]

lemma dropWhile_append_one (p : Nat → Bool) (xs : List Nat) (c : Nat)
    (h : p c = false) : (xs ++ [c]).dropWhile p = xs.dropWhile p ++ [c] := by
  induction xs with
  | nil => simp [List.dropWhile_cons, h]
  | cons x t ih =>
    by_cases hx : p x
    · simp [List.dropWhile_cons, hx, ih]
    · simp [List.dropWhile_cons, hx]

lemma pyStrip_cons (c : Nat) (s : PyStr) (h : isPySpace c = false) :
    pyStrip (c :: s) = c :: (s.reverse.dropWhile isPySpace).reverse := by
  unfold pyStrip
  rw [List.dropWhile_cons, if_neg (by simp [h])]
  rw [show (c :: s).reverse = s.reverse ++ [c] by simp]
  rw [dropWhile_append_one _ _ _ h]
  simp

lemma hexAny_ranges (c : Nat) :
    isHexAny c = true ↔
      (48 ≤ c ∧ c ≤ 57) ∨ (97 ≤ c ∧ c ≤ 102) ∨ (65 ≤ c ∧ c ≤ 70) := by
  unfold isHexAny hexDigit?
  split_ifs with h1 h2 h3 <;> simp <;> omega

lemma hexDigit_upperChar (c : Nat) : hexDigit? (pyUpperChar c) = hexDigit? c := by
  unfold pyUpperChar hexDigit?
  split_ifs <;> try rfl
  all_goals first
    | (exfalso; omega)
    | (congr 1; omega)

lemma upperChar_hexUpper (c : Nat) (h : isHexAny c = true) :
    (48 ≤ pyUpperChar c ∧ pyUpperChar c ≤ 57) ∨
      (65 ≤ pyUpperChar c ∧ pyUpperChar c ≤ 70) := by
  have := (hexAny_ranges c).mp h
  unfold pyUpperChar
  split_ifs <;> omega

lemma isPySpace_false_of (c : Nat) (h : 36 ≤ c) : isPySpace c = false := by
  simp only [isPySpace, Bool.or_eq_false_iff, beq_eq_false_iff_ne]
  omega

lemma isNotCRLF_of (c : Nat) (h : 14 ≤ c) : isNotCRLF c = true := by
  simp only [isNotCRLF, Bool.and_eq_true, Bool.not_eq_true', beq_eq_false_iff_ne]
  omega

lemma isAsciiByte_of (c : Nat) (h : c < 128) : isAsciiByte c = true := by
  simpa [isAsciiByte] using h

lemma pyUpperChar_fix (c : Nat) (h : c ≤ 96) : pyUpperChar c = c := by
  rw [pyUpperChar, if_neg]
  omega

lemma hexAny_of_upper (c : Nat) (h : (48 ≤ c ∧ c ≤ 57) ∨ (65 ≤ c ∧ c ≤ 70)) :
    isHexAny c = true := (hexAny_ranges c).mpr (by tauto)

lemma isHex2Upper_elim (s : PyStr) (h : isHex2Upper s = true) :
    s.length = 2 ∧ ∀ c ∈ s, (48 ≤ c ∧ c ≤ 57) ∨ (65 ≤ c ∧ c ≤ 70) := by
  unfold isHex2Upper at h
  simp only [Bool.and_eq_true, beq_iff_eq, List.all_eq_true] at h
  refine ⟨h.1, fun c hc => ?_⟩
  have := h.2 c hc
  simp only [Bool.or_eq_true, Bool.and_eq_true, decide_eq_true_eq] at this
  exact this

lemma isHex2Upper_intro (s : PyStr) (hlen : s.length = 2)
    (h : ∀ c ∈ s, (48 ≤ c ∧ c ≤ 57) ∨ (65 ≤ c ∧ c ≤ 70)) :
    isHex2Upper s = true := by
  unfold isHex2Upper
  simp only [Bool.and_eq_true, beq_iff_eq, List.all_eq_true]
  refine ⟨hlen, fun c hc => ?_⟩
  have := h c hc
  simp only [Bool.or_eq_true, Bool.and_eq_true, decide_eq_true_eq]
  exact this

lemma hexTail_all (s : PyStr) :
    ∀ acc, (∀ c ∈ s, isHexAny c = true) →
      hexTail acc s = some (s.foldl (fun a c => a * 16 + (hexDigit? c).getD 0) acc) := by
  induction s with
  | nil => intro acc _; rfl
  | cons c rest ih =>
    intro acc h
    have hc : isHexAny c = true := h c (by simp)
    have hc95 : c ≠ 95 := by have := (hexAny_ranges c).mp hc; omega
    obtain ⟨d, hd⟩ := Option.isSome_iff_exists.mp hc
    have step : hexTail acc (c :: rest) = hexTail (acc * 16 + d) rest := by
      rw [hexTail.eq_def]
      simp [hc95, hd]
    rw [step, ih (acc * 16 + d) fun a ha => h a (by simp [ha])]
    simp [hd]

lemma hexCore_all (s : PyStr) (hne : s ≠ []) (h : ∀ c ∈ s, isHexAny c = true) :
    hexCore s = some (hexNat s) := by
  cases s with
  | nil => exact absurd rfl hne
  | cons c rest =>
    have hc : isHexAny c = true := h c (by simp)
    obtain ⟨d, hd⟩ := Option.isSome_iff_exists.mp hc
    simp only [hexCore, hd]
    rw [hexTail_all rest d fun a ha => h a (by simp [ha])]
    simp [hexNat, hd]

lemma pyIntHexCore_all (s : PyStr) (hne : s ≠ []) (h : ∀ c ∈ s, isHexAny c = true) :
    pyIntHexCore s = some (hexNat s) := by
  cases s with
  | nil => exact absurd rfl hne
  | cons c rest =>
    cases rest with
    | nil => rw [show pyIntHexCore [c] = hexCore [c] from rfl, hexCore_all _ (by simp) h]
    | cons x r2 =>
      have hx : isHexAny x = true := h x (by simp)
      have hcond : ¬ (c = 48 ∧ (x = 120 ∨ x = 88)) := by
        have := (hexAny_ranges x).mp hx; omega
      simp only [pyIntHexCore, if_neg hcond]
      exact hexCore_all _ (by simp) h

lemma pyIntHex_all (s : PyStr) (hne : s ≠ []) (h : ∀ c ∈ s, isHexAny c = true) :
    pyIntHex s = some ((hexNat s : Int)) := by
  have hstrip : pyStrip s = s := by
    refine pyStrip_eq_self s fun a ha => isPySpace_false_of a ?_
    have := (hexAny_ranges a).mp (h a ha); omega
  cases s with
  | nil => exact absurd rfl hne
  | cons c rest =>
    have hc := (hexAny_ranges c).mp (h c (by simp))
    have hsign : pySignSplit (c :: rest) = (false, c :: rest) := by
      rw [pySignSplit, if_neg (by omega), if_neg (by omega)]
    rw [pyIntHex, hstrip]
    simp [hsign, pyIntHexCore_all _ (by simp) h]

lemma hexNat_upper (s : PyStr) : hexNat (pyUpper s) = hexNat s := by
  unfold hexNat pyUpper
  rw [List.foldl_map]
  congr 1
  funext a c
  rw [hexDigit_upperChar]

lemma hexDigitUpper_range (d : Nat) (h : d < 16) :
    (48 ≤ hexDigitUpper d ∧ hexDigitUpper d ≤ 57) ∨
      (65 ≤ hexDigitUpper d ∧ hexDigitUpper d ≤ 70) := by
  unfold hexDigitUpper
  split_ifs <;> omega

lemma hexDigit_hexDigitUpper (d : Nat) (h : d < 16) :
    hexDigit? (hexDigitUpper d) = some d := by
  unfold hexDigitUpper hexDigit?
  split_ifs <;> first | (congr 1; omega) | (exfalso; omega)

lemma toHex2_ranges (n : Nat) (hn : n < 256) :
    ∀ c ∈ toHex2 n, (48 ≤ c ∧ c ≤ 57) ∨ (65 ≤ c ∧ c ≤ 70) := by
  intro c hc
  rcases List.mem_pair.mp hc with h | h <;> subst h
  · exact hexDigitUpper_range _ (by omega)
  · exact hexDigitUpper_range _ (by omega)

lemma toHex2_hex2upper (n : Nat) (hn : n < 256) : isHex2Upper (toHex2 n) = true :=
  isHex2Upper_intro _ rfl (toHex2_ranges n hn)

lemma hexNat_toHex2 (n : Nat) (h : n < 256) : hexNat (toHex2 n) = n := by
  have h1 : hexDigit? (hexDigitUpper (n / 16)) = some (n / 16) :=
    hexDigit_hexDigitUpper _ (by omega)
  have h2 : hexDigit? (hexDigitUpper (n % 16)) = some (n % 16) :=
    hexDigit_hexDigitUpper _ (by omega)
  unfold hexNat toHex2
  simp only [List.foldl_cons, List.foldl_nil, h1, h2, Option.getD_some]
  omega

lemma pyIntHex_toHex2 (n : Nat) (h : n < 256) :
    pyIntHex (toHex2 n) = some ((n : Int)) := by
  rw [pyIntHex_all _ (by simp [toHex2])
      (fun c hc => hexAny_of_upper c (toHex2_ranges n h c hc)),
    hexNat_toHex2 n h]

lemma is_framed_mk (mid : PyStr) (h : ∀ c ∈ mid, isNotCRLF c = true) :
    is_framed_command (36 :: (mid ++ [13, 10])) = true := by
  rw [is_framed_command]
  have hlen : (mid ++ [13, 10]).length - 2 = mid.length := by simp
  simp only [hlen, Bool.and_eq_true, decide_eq_true_eq]
  refine ⟨⟨by simp, ?_⟩, ?_⟩
  · rw [List.drop_left]
    rfl
  · rw [List.take_left]
    exact List.all_eq_true.mpr h

lemma startsWith_append_self (l m : PyStr) : pyStartsWith l (l ++ m) = true := by
  simp [pyStartsWith, List.isPrefixOf_iff_prefix]

lemma startsWith_single_false (a c : Nat) (t : PyStr) (h : c ≠ a) :
    pyStartsWith [a] (c :: t) = false := by
  simp only [pyStartsWith, List.isPrefixOf, Bool.and_eq_false_iff, beq_eq_false_iff_ne]
  exact Or.inl fun heq => h heq.symm

lemma compose_frame_default_eq (cid payload cidU : PyStr)
    (hU : pyUpper (pyStrip cid) = cidU)
    (hcid : isHex2Upper cidU = true)
    (hasc : ∀ c ∈ payload, isAsciiByte c = true)
    (hcrlf : ∀ c ∈ payload, isNotCRLF c = true)
    (hds : pyStartsWith (str ("$")) payload = false) :
    compose_frame cid payload default_checksum_hex_2 =
      .ok (36 :: (cidU ++ (payload ++ (toHex2 (payload.sum % 256) ++ [13, 10])))) := by
  obtain ⟨hlen2, hranges⟩ := isHex2Upper_elim cidU hcid
  have hk : payload.sum % 256 < 256 := Nat.mod_lt _ (by norm_num)
  have hfilter_crlf : payload.filter isNotCRLF = payload := List.filter_eq_self.mpr hcrlf
  have hfwc : ((36 :: cidU) ++ payload).filter isAsciiByte = (36 :: cidU) ++ payload := by
    apply List.filter_eq_self.mpr
    intro a ha
    rcases List.mem_append.mp ha with h | h
    · rcases List.mem_cons.mp h with h1 | h1
      · subst h1; rfl
      · exact isAsciiByte_of a (by have := hranges a h1; omega)
    · exact hasc a h
  have hdrop3 : ((36 :: cidU) ++ payload).drop 3 = payload := by
    have h3 : (36 :: cidU).length = 3 := by simp [hlen2]
    rw [← h3, List.drop_left]
  have hchk : default_checksum_hex_2 ((36 :: cidU) ++ payload) =
      toHex2 (payload.sum % 256) := by
    simp only [default_checksum_hex_2]
    rw [hfwc, hdrop3]
  have hstripHex : pyStrip (toHex2 (payload.sum % 256)) = toHex2 (payload.sum % 256) :=
    pyStrip_eq_self _ fun a ha =>
      isPySpace_false_of a (by have := toHex2_ranges _ hk a ha; omega)
  have hupHex : pyUpper (toHex2 (payload.sum % 256)) = toHex2 (payload.sum % 256) :=
    list_map_fix _ _ fun a ha =>
      pyUpperChar_fix a (by have := toHex2_ranges _ hk a ha; omega)
  simp only [compose_frame]
  rw [hU]
  rw [if_neg (by simp [hcid])]
  rw [if_neg (show ¬ (pyStartsWith (str ("$")) payload = true) by simp [hds])]
  rw [hfilter_crlf, hfwc, hchk, hstripHex, hupHex]
  rw [if_neg (by simp [toHex2_hex2upper _ hk])]
  simp [List.append_assoc]

lemma compose_frame_default_shape (cid data cidU : PyStr)
    (hU : pyUpper (pyStrip cid) = cidU)
    (hcid : isHex2Upper cidU = true) :
    compose_frame cid data default_checksum_hex_2 =
      .ok (36 :: (cidU ++ (composePayload data ++
        (toHex2 ((composePayload data).sum % 256) ++ [13, 10])))) := by
  obtain ⟨hlen2, hranges⟩ := isHex2Upper_elim cidU hcid
  have h36 : ∀ a ∈ (36 :: cidU), isAsciiByte a = true := by
    intro a ha
    rcases List.mem_cons.mp ha with h | h
    · subst h; rfl
    · exact isAsciiByte_of a (by have := hranges a h; omega)
  have hp2_ascii : ∀ a ∈ composePayload data, isAsciiByte a = true := fun a ha =>
    List.of_mem_filter ha
  have hk : (composePayload data).sum % 256 < 256 := Nat.mod_lt _ (by norm_num)
  have hcp : ((if pyStartsWith (str ("$")) data then data.drop 1 else data).filter
      isNotCRLF).filter isAsciiByte = composePayload data := rfl
  simp only [compose_frame]
  rw [hU, if_neg (by simp [hcid])]
  rw [List.filter_append, List.filter_eq_self.mpr h36, hcp]
  have hchk : default_checksum_hex_2 ((36 :: cidU) ++ composePayload data) =
      toHex2 ((composePayload data).sum % 256) := by
    simp only [default_checksum_hex_2]
    rw [List.filter_eq_self.mpr (by
      intro a ha
      rcases List.mem_append.mp ha with h | h
      · exact h36 a h
      · exact hp2_ascii a h)]
    congr 1
    have h3 : (36 :: cidU).length = 3 := by simp [hlen2]
    rw [show ((36 :: cidU) ++ composePayload data).drop 3 = composePayload data by
      rw [← h3, List.drop_left]]
  have hstripHex : pyStrip (toHex2 ((composePayload data).sum % 256)) =
      toHex2 ((composePayload data).sum % 256) :=
    pyStrip_eq_self _ fun a ha =>
      isPySpace_false_of a (by have := toHex2_ranges _ hk a ha; omega)
  have hupHex : pyUpper (toHex2 ((composePayload data).sum % 256)) =
      toHex2 ((composePayload data).sum % 256) :=
    list_map_fix _ _ fun a ha =>
      pyUpperChar_fix a (by have := toHex2_ranges _ hk a ha; omega)
  rw [hchk, hstripHex, hupHex]
  rw [if_neg (by simp [toHex2_hex2upper _ hk])]
  simp [List.append_assoc]

lemma parse_reply_nonFF (cid2 payload : PyStr) (r : Nat)
    (hlen : cid2.length = 2)
    (hranges : ∀ c ∈ cid2, (48 ≤ c ∧ c ≤ 57) ∨ (65 ≤ c ∧ c ≤ 70))
    (hFF : cid2 ≠ str ("FF"))
    (hcrlf : ∀ c ∈ payload, isNotCRLF c = true)
    (hr : r < 256) :
    parse_reply (36 :: (cid2 ++ (payload ++ (toHex2 r ++ [13, 10])))) =
      if ((payload.sum % 256 : Nat) : Int) = (r : Int) then
        .ok ((hexNat cid2 : Int), payload)
      else .error (.checksumMismatch (payload.sum % 256) (r : Int)) := by
  have hmid_crlf : ∀ c ∈ cid2 ++ payload ++ toHex2 r, isNotCRLF c = true := by
    intro c hc
    rcases List.mem_append.mp hc with h | h
    · rcases List.mem_append.mp h with h1 | h1
      · exact isNotCRLF_of c (by have := hranges c h1; omega)
      · exact hcrlf c h1
    · exact isNotCRLF_of c (by have := toHex2_ranges r hr c h; omega)
  have hframed : is_framed_command (36 :: (cid2 ++ (payload ++ (toHex2 r ++ [13, 10])))) =
      true := by
    have := is_framed_mk (cid2 ++ payload ++ toHex2 r) hmid_crlf
    simpa [List.append_assoc] using this
  have hpkt : (36 :: (cid2 ++ (payload ++ (toHex2 r ++ [13, 10])))).dropLast.dropLast =
      36 :: (cid2 ++ (payload ++ toHex2 r)) := by
    have := list_dropLast_two (36 :: (cid2 ++ (payload ++ toHex2 r))) [13, 10] rfl
    simpa [List.append_assoc] using this
  have hcmd : ((36 :: (cid2 ++ (payload ++ toHex2 r))).drop 1).take 2 = cid2 := by
    rw [List.drop_one, List.tail_cons, ← hlen, List.take_left]
  have hrcs : (36 :: (cid2 ++ (payload ++ toHex2 r))).drop
      ((36 :: (cid2 ++ (payload ++ toHex2 r))).length - 2) = toHex2 r := by
    have := list_drop_sub_two (36 :: (cid2 ++ payload)) (toHex2 r) rfl
    simpa [List.append_assoc] using this
  have hacc : ((36 :: (cid2 ++ (payload ++ toHex2 r))).drop 3).dropLast.dropLast =
      payload := by
    have h1 : (36 :: (cid2 ++ (payload ++ toHex2 r))).drop 3 =
        (cid2 ++ (payload ++ toHex2 r)).drop 2 := rfl
    rw [h1, ← hlen, List.drop_left]
    exact list_dropLast_two _ _ rfl
  simp only [parse_reply]
  rw [if_neg (by simp [hframed])]
  rw [hpkt]
  rw [if_neg (by simp [toHex2]; omega)]
  rw [hcmd, hrcs, hacc]
  rw [if_neg hFF]
  rw [pyIntHex_all cid2 (by intro hnil; rw [hnil] at hlen; simp at hlen)
    (fun c hc => hexAny_of_upper c (hranges c hc))]
  rw [pyIntHex_toHex2 r hr]

lemma parse_reply_FF (inner body : PyStr) (r : Nat)
    (hlen4 : inner.length = 4)
    (hhex : ∀ c ∈ inner, isHexAny c = true)
    (hbody_crlf : ∀ c ∈ body, isNotCRLF c = true)
    (hbody_ne : body ≠ [])
    (hr : r < 256) :
    parse_reply (36 :: 70 :: 70 :: (inner ++ (body ++ (toHex2 r ++ [13, 10])))) =
      if (((inner ++ body).sum % 256 : Nat) : Int) = (r : Int) then
        .ok ((hexNat inner : Int), inner ++ body)
      else .error (.checksumMismatch ((inner ++ body).sum % 256) (r : Int)) := by
  have hinner_crlf : ∀ c ∈ inner, isNotCRLF c = true := fun c hc =>
    isNotCRLF_of c (by have := (hexAny_ranges c).mp (hhex c hc); omega)
  have hmid_crlf : ∀ c ∈ 70 :: 70 :: (inner ++ (body ++ toHex2 r)), isNotCRLF c = true := by
    intro c hc
    rcases List.mem_cons.mp hc with h | h
    · subst h; rfl
    rcases List.mem_cons.mp h with h | h
    · subst h; rfl
    rcases List.mem_append.mp h with h1 | h1
    · exact hinner_crlf c h1
    rcases List.mem_append.mp h1 with h2 | h2
    · exact hbody_crlf c h2
    · exact isNotCRLF_of c (by have := toHex2_ranges r hr c h2; omega)
  have hframed : is_framed_command
      (36 :: 70 :: 70 :: (inner ++ (body ++ (toHex2 r ++ [13, 10])))) = true := by
    have := is_framed_mk (70 :: 70 :: (inner ++ (body ++ toHex2 r))) hmid_crlf
    simpa [List.append_assoc] using this
  have hpkt : (36 :: 70 :: 70 :: (inner ++ (body ++ (toHex2 r ++ [13, 10])))).dropLast.dropLast
      = 36 :: 70 :: 70 :: (inner ++ (body ++ toHex2 r)) := by
    have := list_dropLast_two (36 :: 70 :: 70 :: (inner ++ (body ++ toHex2 r))) [13, 10] rfl
    simpa [List.append_assoc] using this
  have hblen : 1 ≤ body.length := List.length_pos.mpr hbody_ne
  have hcmd4 : ((36 :: 70 :: 70 :: (inner ++ (body ++ toHex2 r))).drop 3).take 4 = inner := by
    rw [show (36 :: 70 :: 70 :: (inner ++ (body ++ toHex2 r))).drop 3 =
      inner ++ (body ++ toHex2 r) from rfl, ← hlen4, List.take_left]
  have hrcs : (36 :: 70 :: 70 :: (inner ++ (body ++ toHex2 r))).drop
      ((36 :: 70 :: 70 :: (inner ++ (body ++ toHex2 r))).length - 2) = toHex2 r := by
    have := list_drop_sub_two (36 :: 70 :: 70 :: (inner ++ body)) (toHex2 r) rfl
    simpa [List.append_assoc] using this
  have hpay : ((36 :: 70 :: 70 :: (inner ++ (body ++ toHex2 r))).drop 7).dropLast.dropLast
      = body := by
    have h1 : (36 :: 70 :: 70 :: (inner ++ (body ++ toHex2 r))).drop 7 =
        (inner ++ (body ++ toHex2 r)).drop 4 := rfl
    rw [h1, ← hlen4, List.drop_left]
    exact list_dropLast_two _ _ rfl
  simp only [parse_reply]
  rw [if_neg (by simp [hframed])]
  rw [hpkt]
  rw [if_neg (by simp [toHex2]; omega)]
  have hcmdstr : ((36 :: 70 :: 70 :: (inner ++ (body ++ toHex2 r))).drop 1).take 2 =
      str ("FF") := rfl
  rw [hcmdstr, if_pos rfl]
  rw [if_neg (by simp [toHex2]; omega)]
  rw [hcmd4, hrcs, hpay]
  rw [pyIntHex_all inner (by intro hnil; rw [hnil] at hlen4; simp at hlen4) hhex]
  rw [pyIntHex_toHex2 r hr]

/-! ## Claim theorems -/

/-- C1: for every valid 2-hex command id (here: exactly two hex digits,
whose upper-case form is not "FF") and every ASCII payload free of CR/LF
that does not begin with `$`, `parse_reply` applied to the output of
`compose_frame` with the default checksum recovers `(int(id, 16), payload)`
exactly. -/
theorem frame_roundtrip_c1 (cid payload : PyStr)
    (hlen : cid.length = 2)
    (hhex : ∀ c ∈ cid, isHexAny c = true)
    (hFF : pyUpper cid ≠ str ("FF"))
    (hasc : ∀ c ∈ payload, isAsciiByte c = true)
    (hcrlf : ∀ c ∈ payload, isNotCRLF c = true)
    (hds : pyStartsWith (str ("$")) payload = false) :
    ∃ v frame, pyIntHex cid = some v ∧
      compose_frame cid payload default_checksum_hex_2 = .ok frame ∧
      parse_reply frame = .ok (v, payload) := by
  have hstrip : pyStrip cid = cid := pyStrip_eq_self _ fun a ha =>
    isPySpace_false_of a (by have := (hexAny_ranges a).mp (hhex a ha); omega)
  have hranges : ∀ c ∈ pyUpper cid, (48 ≤ c ∧ c ≤ 57) ∨ (65 ≤ c ∧ c ≤ 70) := by
    intro c hc
    obtain ⟨a, ha, rfl⟩ := List.mem_map.mp hc
    exact upperChar_hexUpper a (hhex a ha)
  have hlenU : (pyUpper cid).length = 2 := by simp [pyUpper, hlen]
  have hcidU : isHex2Upper (pyUpper cid) = true := isHex2Upper_intro _ hlenU hranges
  have hcomp := compose_frame_default_eq cid payload (pyUpper cid) (by rw [hstrip]) hcidU
    hasc hcrlf hds
  have hparse := parse_reply_nonFF (pyUpper cid) payload (payload.sum % 256) hlenU hranges
    hFF hcrlf (Nat.mod_lt _ (by norm_num))
  refine ⟨(hexNat cid : Int), _, ?_, hcomp, ?_⟩
  · exact pyIntHex_all cid (by intro h; rw [h] at hlen; simp at hlen) hhex
  · rw [hparse, if_pos rfl, hexNat_upper]

/-- C1 witness: a concrete round trip with id "3F" and payload "HELLO". -/
theorem frame_roundtrip_c1_witness :
    ∃ v frame, pyIntHex (str ("3F")) = some v ∧
      compose_frame (str ("3F")) (str ("HELLO")) default_checksum_hex_2 = .ok frame ∧
      parse_reply frame = .ok (v, str ("HELLO")) :=
  frame_roundtrip_c1 (str ("3F")) (str ("HELLO")) (by decide) (by decide) (by decide)
    (by decide) (by decide) (by decide)

/-- C10: for every command id string that normalizes (strip + upper-case)
to exactly 2 hex digits and every payload string whatsoever,
`compose_frame` with the default checksum function succeeds (the malformed
checksum-result error branch is unreachable), and the resulting byte
string — whose bytes are all ASCII, so its ASCII decoding is itself —
satisfies `is_framed_command`: it starts with `$`, has no interior CR/LF,
and ends with CRLF. -/
theorem compose_total_framed_c10 (cid data : PyStr)
    (hhexU : isHex2Upper (pyUpper (pyStrip cid)) = true) :
    ∃ frame, compose_frame cid data default_checksum_hex_2 = .ok frame ∧
      is_framed_command frame = true := by
  obtain ⟨hlen2, hranges⟩ := isHex2Upper_elim _ hhexU
  have h36 : ∀ c ∈ (36 :: pyUpper (pyStrip cid)), isAsciiByte c = true := by
    intro a ha
    rcases List.mem_cons.mp ha with h | h
    · subst h; rfl
    · exact isAsciiByte_of a (by have := hranges a h; omega)
  simp only [compose_frame]
  rw [if_neg (by simp [hhexU])]
  generalize hP : (if pyStartsWith (str ("$")) data then data.drop 1 else data).filter
    isNotCRLF = p1
  have hp1 : ∀ c ∈ p1, isNotCRLF c = true := by
    intro c hc
    rw [← hP] at hc
    exact List.of_mem_filter hc
  have hfwc : ((36 :: pyUpper (pyStrip cid)) ++ p1).filter isAsciiByte =
      (36 :: pyUpper (pyStrip cid)) ++ p1.filter isAsciiByte := by
    rw [List.filter_append]
    congr 1
    exact List.filter_eq_self.mpr h36
  rw [hfwc]
  generalize hQ : p1.filter isAsciiByte = p2
  have hp2_crlf : ∀ c ∈ p2, isNotCRLF c = true := by
    intro c hc
    rw [← hQ] at hc
    exact hp1 c (List.mem_of_mem_filter hc)
  have hp2_ascii : ∀ c ∈ p2, isAsciiByte c = true := by
    intro c hc
    rw [← hQ] at hc
    exact List.of_mem_filter hc
  have hk : p2.sum % 256 < 256 := Nat.mod_lt _ (by norm_num)
  have hchk : default_checksum_hex_2 ((36 :: pyUpper (pyStrip cid)) ++ p2) =
      toHex2 (p2.sum % 256) := by
    simp only [default_checksum_hex_2]
    rw [List.filter_eq_self.mpr (by
      intro a ha
      rcases List.mem_append.mp ha with h | h
      · exact h36 a h
      · exact hp2_ascii a h)]
    congr 1
    have h3 : (36 :: pyUpper (pyStrip cid)).length = 3 := by simp [hlen2]
    rw [show ((36 :: pyUpper (pyStrip cid)) ++ p2).drop 3 = p2 by
      rw [← h3, List.drop_left]]
  have hstripHex : pyStrip (toHex2 (p2.sum % 256)) = toHex2 (p2.sum % 256) :=
    pyStrip_eq_self _ fun a ha =>
      isPySpace_false_of a (by have := toHex2_ranges _ hk a ha; omega)
  have hupHex : pyUpper (toHex2 (p2.sum % 256)) = toHex2 (p2.sum % 256) :=
    list_map_fix _ _ fun a ha =>
      pyUpperChar_fix a (by have := toHex2_ranges _ hk a ha; omega)
  rw [hchk, hstripHex, hupHex]
  rw [if_neg (by simp [toHex2_hex2upper _ hk])]
  refine ⟨_, rfl, ?_⟩
  have hmid : ∀ c ∈ pyUpper (pyStrip cid) ++ p2 ++ toHex2 (p2.sum % 256),
      isNotCRLF c = true := by
    intro c hc
    rcases List.mem_append.mp hc with h | h
    · rcases List.mem_append.mp h with h1 | h1
      · exact isNotCRLF_of c (by have := hranges c h1; omega)
      · exact hp2_crlf c h1
    · exact isNotCRLF_of c (by have := toHex2_ranges _ hk c h; omega)
  have := is_framed_mk _ hmid
  have hshape : 36 :: ((pyUpper (pyStrip cid) ++ p2 ++ toHex2 (p2.sum % 256)) ++ [13, 10]) =
      (36 :: pyUpper (pyStrip cid)) ++ p2 ++ toHex2 (p2.sum % 256) ++ [13, 10] := by
    simp [List.append_assoc]
  rw [hshape] at this
  exact this

/-- C10 witness: a messy input (lower-case padded id, payload with a
leading `$`, CR, LF and a non-ASCII byte) still composes to a valid frame. -/
theorem compose_total_framed_c10_witness :
    ∃ frame, compose_frame (str (" b5")) (str ("$X\rY\né")) default_checksum_hex_2 =
        .ok frame ∧ is_framed_command frame = true :=
  compose_total_framed_c10 (str (" b5")) (str ("$X\rY\né")) (by decide)

/-- C2 counterexample: the claim "changing any single character of the
checksum-covered region to any different character causes a checksum
error" is false.  `compose_frame("01", "A")` yields `$01A41\r\n`; replacing
the covered character `A` (code 65) by the different character `Ł` (code
321 = 65 + 256) leaves the mod-256 checksum unchanged, and `parse_reply`
on the modified frame succeeds instead of failing. -/
theorem checksum_flip_c2_counterexample :
    compose_frame (str ("01")) (str ("A")) default_checksum_hex_2 =
        .ok (str ("$01A41\r\n")) ∧
    (str ("$01A41\r\n")).set 3 321 = [36, 48, 49, 321, 52, 49, 13, 10] ∧
    parse_reply ((str ("$01A41\r\n")).set 3 321) = .ok (1, [321]) := by
  refine ⟨by decide, by decide, by decide⟩

/-- C2 amended: for every frame `compose_frame` produces with the default
checksum from a non-"FF" id — the input `data` is arbitrary, and the
frame's accumulated-buffer region is `composePayload data`, decomposed as
`l1 ++ c :: l2` to pick the flipped position (this includes regions that
themselves begin with `$`, e.g. from `data = "$$A"`) — changing the
covered character `c` to a *different ASCII character that is not CR or
LF* makes `parse_reply` fail with a checksum error.  (The original claim
fails for non-ASCII replacements congruent mod 256 — see the
counterexample — and CR/LF replacements break the framing check first;
for outer id "FF" a corrupted inner id can also fail with an extended-id
format error before the checksum comparison.) -/
theorem checksum_flip_detected_c2 (cid data l1 l2 : PyStr) (c c' : Nat)
    (hcid : isHex2Upper cid = true)
    (hFF : cid ≠ str ("FF"))
    (hsplit : composePayload data = l1 ++ c :: l2)
    (hc' : c' < 128) (hcr : c' ≠ 13) (hlf : c' ≠ 10) (hne : c' ≠ c) :
    ∃ frame, compose_frame cid data default_checksum_hex_2 = .ok frame ∧
      ∃ a b, parse_reply (frame.set (3 + l1.length) c') =
        .error (.checksumMismatch a b) := by
  obtain ⟨hlen2, hranges⟩ := isHex2Upper_elim cid hcid
  have hstrip : pyStrip cid = cid := pyStrip_eq_self _ fun a ha =>
    isPySpace_false_of a (by have := hranges a ha; omega)
  have hupper : pyUpper cid = cid := list_map_fix _ _ fun a ha =>
    pyUpperChar_fix a (by have := hranges a ha; omega)
  have hU : pyUpper (pyStrip cid) = cid := by rw [hstrip, hupper]
  have hasc : ∀ b ∈ l1 ++ c :: l2, isAsciiByte b = true := by
    rw [← hsplit]
    intro b hb
    exact List.of_mem_filter hb
  have hcrlf : ∀ b ∈ l1 ++ c :: l2, isNotCRLF b = true := by
    rw [← hsplit]
    intro b hb
    exact List.of_mem_filter (List.mem_of_mem_filter hb)
  have hcomp := compose_frame_default_shape cid data cid hU hcid
  rw [hsplit] at hcomp
  refine ⟨_, hcomp, ?_⟩
  set k := (l1 ++ c :: l2).sum % 256 with hk
  have hkb : k < 256 := Nat.mod_lt _ (by norm_num)
  -- position 3 + l1.length sits on `c`; the modified frame is the same
  -- frame with payload l1 ++ c' :: l2
  have hshape : 36 :: (cid ++ ((l1 ++ c :: l2) ++ (toHex2 k ++ [13, 10]))) =
      (36 :: cid) ++ (l1 ++ c :: (l2 ++ (toHex2 k ++ [13, 10]))) := by
    simp [List.append_assoc]
  have hset : (36 :: (cid ++ ((l1 ++ c :: l2) ++ (toHex2 k ++ [13, 10])))).set
      (3 + l1.length) c' =
      36 :: (cid ++ ((l1 ++ c' :: l2) ++ (toHex2 k ++ [13, 10]))) := by
    rw [hshape]
    have h3 : (36 :: cid).length = 3 := by simp [hlen2]
    have := list_set_append (36 :: cid) (l1 ++ c :: (l2 ++ (toHex2 k ++ [13, 10])))
      l1.length c'
    rw [h3] at this
    rw [this, list_set_mid]
    simp [List.append_assoc]
  rw [hset]
  have hcrlf' : ∀ b ∈ l1 ++ c' :: l2, isNotCRLF b = true := by
    intro b hb
    rcases List.mem_append.mp hb with h | h
    · exact hcrlf b (by simp [h])
    · rcases List.mem_cons.mp h with h1 | h1
      · subst h1
        simp only [isNotCRLF, Bool.and_eq_true, Bool.not_eq_true', beq_eq_false_iff_ne]
        exact ⟨hcr, hlf⟩
      · exact hcrlf b (by simp [h1])
  have hparse := parse_reply_nonFF cid (l1 ++ c' :: l2) k hlen2 hranges hFF hcrlf' hkb
  rw [hparse]
  have hcb : c < 128 := by
    have := hasc c (by simp)
    simpa [isAsciiByte] using this
  have hsum_ne : ¬ (((l1 ++ c' :: l2).sum % 256 : Nat) : Int) = (k : Int) := by
    have hsum : (l1 ++ c' :: l2).sum + c = (l1 ++ c :: l2).sum + c' := by
      simp [List.sum_append]
      omega
    rw [hk]
    intro hEq
    have hEq' : (l1 ++ c' :: l2).sum % 256 = (l1 ++ c :: l2).sum % 256 := by
      exact_mod_cast hEq
    omega
  rw [if_neg hsum_ne]
  exact ⟨_, _, rfl⟩

/-- C2 amended, witness: `compose_frame("01", "$$A")` emits `$01$A65\r\n`,
whose covered region `"$A"` itself begins with `$`; flipping that covered
`$` to the ASCII character `B` is caught as a checksum error. -/
theorem checksum_flip_detected_c2_witness :
    ∃ frame, compose_frame (str ("01")) (str ("$$A")) default_checksum_hex_2 =
        .ok frame ∧
      ∃ a b, parse_reply (frame.set 3 66) = .error (.checksumMismatch a b) := by
  have h := checksum_flip_detected_c2 (str ("01")) (str ("$$A")) [] [65] 36 66
    (by decide) (by decide) (by decide) (by decide) (by decide) (by decide) (by decide)
  simpa using h

/-- C6: a frame with outer id `FF`, a 4-hex-digit inner id and a nonempty
remaining payload (so the stripped length is ≥ 10) round-trips through
`compose_frame` and `parse_reply`: the returned command id is the integer
value of the inner id, and the accumulated buffer is the inner id
concatenated with the remaining payload (in particular it begins with the
inner id). -/
theorem extended_id_roundtrip_c6 (inner body : PyStr)
    (hlen4 : inner.length = 4)
    (hhex : ∀ c ∈ inner, isHexAny c = true)
    (hasc : ∀ c ∈ body, isAsciiByte c = true)
    (hcrlf : ∀ c ∈ body, isNotCRLF c = true)
    (hne : body ≠ []) :
    ∃ v frame, pyIntHex inner = some v ∧
      compose_frame (str ("FF")) (inner ++ body) default_checksum_hex_2 = .ok frame ∧
      parse_reply frame = .ok (v, inner ++ body) ∧
      pyStartsWith inner (inner ++ body) = true := by
  have hinner_ascii : ∀ c ∈ inner, isAsciiByte c = true := fun c hc =>
    isAsciiByte_of c (by have := (hexAny_ranges c).mp (hhex c hc); omega)
  have hinner_crlf : ∀ c ∈ inner, isNotCRLF c = true := fun c hc =>
    isNotCRLF_of c (by have := (hexAny_ranges c).mp (hhex c hc); omega)
  have hasc' : ∀ c ∈ inner ++ body, isAsciiByte c = true := by
    intro c hc
    rcases List.mem_append.mp hc with h | h
    · exact hinner_ascii c h
    · exact hasc c h
  have hcrlf' : ∀ c ∈ inner ++ body, isNotCRLF c = true := by
    intro c hc
    rcases List.mem_append.mp hc with h | h
    · exact hinner_crlf c h
    · exact hcrlf c h
  have hds : pyStartsWith (str ("$")) (inner ++ body) = false := by
    cases inner with
    | nil => simp at hlen4
    | cons a t =>
      have ha := (hexAny_ranges a).mp (hhex a (by simp))
      exact startsWith_single_false 36 a _ (by omega)
  have hcomp := compose_frame_default_eq (str ("FF")) (inner ++ body) (str ("FF"))
    (by decide) (by decide) hasc' hcrlf' hds
  have hshape : 36 :: (str ("FF") ++ ((inner ++ body) ++
      (toHex2 ((inner ++ body).sum % 256) ++ [13, 10]))) =
      36 :: 70 :: 70 :: (inner ++ (body ++
        (toHex2 ((inner ++ body).sum % 256) ++ [13, 10]))) := by
    simp [str, List.append_assoc]
  rw [hshape] at hcomp
  have hparse := parse_reply_FF inner body ((inner ++ body).sum % 256) hlen4 hhex hcrlf
    hne (Nat.mod_lt _ (by norm_num))
  refine ⟨(hexNat inner : Int), _, ?_, hcomp, ?_, startsWith_append_self inner body⟩
  · exact pyIntHex_all inner (by intro h; rw [h] at hlen4; simp at hlen4) hhex
  · rw [hparse, if_pos rfl]

/-- C6 witness: outer id `FF` with inner id "1234" and payload "XY"
round-trips to command id 0x1234 = 4660 with buffer "1234XY". -/
theorem extended_id_roundtrip_c6_witness :
    ∃ frame, compose_frame (str ("FF")) (str ("1234XY")) default_checksum_hex_2 =
        .ok frame ∧ parse_reply frame = .ok (4660, str ("1234XY")) := by
  obtain ⟨v, frame, hv, hc, hp, _⟩ := extended_id_roundtrip_c6 (str ("1234")) (str ("XY"))
    (by decide) (by decide) (by decide) (by decide) (by decide)
  have hv4660 : v = 4660 := by
    have : pyIntHex (str ("1234")) = some 4660 := by decide
    rw [this] at hv
    exact (Option.some.inj hv).symm
  have happ : str ("1234") ++ str ("XY") = str ("1234XY") := by decide
  rw [happ] at hc hp
  rw [hv4660] at hp
  exact ⟨frame, hc, hp⟩

/-- C8 counterexample: the claim "a line that does not start with `*`
yields `(false, \x22\x22)`" is false, because `parse_ack` strips the line
first: `" *00"` does not start with `*`, yet parses as a success ack. -/
theorem parse_ack_c8_counterexample :
    pyStartsWith (str ("*")) (str (" *00")) = false ∧
    parse_ack (str (" *00")) = (true, str ("00")) := by
  refine ⟨by decide, by decide⟩

/-- C8 amended: after stripping surrounding whitespace, a line that does
not start with `*` or whose stripped form is shorter than 3 characters
yields `(false, "")`; otherwise the 2 characters after `*` in the stripped
line are the code, and success holds iff the code is "00". -/
theorem parse_ack_amended_c8 (line : PyStr) :
    (¬ pyStartsWith (str ("*")) (pyStrip line) = true ∨ (pyStrip line).length < 3 →
      parse_ack line = (false, [])) ∧
    (pyStartsWith (str ("*")) (pyStrip line) = true → 3 ≤ (pyStrip line).length →
      parse_ack line =
        (((pyStrip line).drop 1).take 2 == str ("00"), ((pyStrip line).drop 1).take 2)) := by
  constructor
  · intro h
    simp only [parse_ack]
    rw [if_pos h]
  · intro h1 h2
    simp only [parse_ack]
    rw [if_neg (by rw [not_or]; exact ⟨not_not_intro h1, by omega⟩)]

/-- C8 amended, witness: a short line and a real rejection code. -/
theorem parse_ack_amended_c8_witness :
    parse_ack (str ("x")) = (false, []) ∧ parse_ack (str ("*07")) = (false, str ("07")) := by
  constructor
  · exact (parse_ack_amended_c8 (str ("x"))).1 (by decide)
  · have h := (parse_ack_amended_c8 (str ("*07"))).2 (by decide) (by decide)
    rw [h]
    decide

lemma startsWith_star_elim (l : PyStr) (h : pyStartsWith (str ("*")) l = true) :
    ∃ t, l = 42 :: t := by
  rw [show str ("*") = [42] from rfl] at h
  cases l with
  | nil => simp [pyStartsWith, List.isPrefixOf] at h
  | cons c t =>
    simp only [pyStartsWith, List.isPrefixOf, Bool.and_eq_true, beq_iff_eq] at h
    exact ⟨t, by rw [← h.1]⟩

/-- C5: the ack-wait loop of `write_command_expect_ok_ack` — a line not
starting with `*` is discarded and the wait continues; a `*`-prefixed line
whose 2-character code (after `*`, in the stripped line) is "00" succeeds
returning that line; a `*`-prefixed line with any other code fails
immediately with the command-rejected error naming that line; and
exhausting the line stream (the deadline) without a `*` line times out. -/
theorem ack_wait_c5 :
    (∀ (l : PyStr) (rest : List PyStr), pyStartsWith (str ("*")) l = false →
      write_command_expect_ok_ack (l :: rest) = write_command_expect_ok_ack rest) ∧
    (∀ (l : PyStr) (rest : List PyStr), pyStartsWith (str ("*")) l = true →
      ((pyStrip l).drop 1).take 2 = str ("00") →
      write_command_expect_ok_ack (l :: rest) = .okAck l) ∧
    (∀ (l : PyStr) (rest : List PyStr), pyStartsWith (str ("*")) l = true →
      ((pyStrip l).drop 1).take 2 ≠ str ("00") →
      write_command_expect_ok_ack (l :: rest) = .rejected l) ∧
    write_command_expect_ok_ack [] = .timedOut := by
  refine ⟨?_, ?_, ?_, rfl⟩
  · intro l rest h
    simp only [write_command_expect_ok_ack]
    rw [if_pos (by simp [h])]
  · intro l rest h hcode
    obtain ⟨t, rfl⟩ := startsWith_star_elim l h
    have hs : pyStrip (42 :: t) = 42 :: (t.reverse.dropWhile isPySpace).reverse :=
      pyStrip_cons 42 t rfl
    have hcode' : ((42 :: (t.reverse.dropWhile isPySpace).reverse).drop 1).take 2 =
        str ("00") := by rw [← hs]; exact hcode
    simp only [List.drop_one, List.tail_cons] at hcode'
    have hlen3 : 3 ≤ (pyStrip (42 :: t)).length := by
      have hlen2' := congrArg List.length hcode'
      rw [List.length_take, show (str ("00")).length = 2 from rfl,
        List.length_reverse] at hlen2'
      rw [hs]
      simp only [List.length_cons, List.length_reverse]
      omega
    have hstarts : pyStartsWith (str ("*")) (pyStrip (42 :: t)) = true := by
      rw [hs, show str ("*") = [42] from rfl]
      simp [pyStartsWith, List.isPrefixOf]
    have hpa : parse_ack (42 :: t) = (true, str ("00")) := by
      simp only [parse_ack]
      rw [if_neg (by rw [not_or]; exact ⟨not_not_intro hstarts, by omega⟩)]
      rw [hs]
      simp only [List.drop_one, List.tail_cons, hcode']
      rfl
    simp only [write_command_expect_ok_ack, hpa]
    rw [if_neg (by simp [h])]
    rfl
  · intro l rest h hcode
    have hfst : (parse_ack l).1 = false := by
      simp only [parse_ack]
      split_ifs with hcond
      · rfl
      · exact beq_eq_false_iff_ne.mpr hcode
    simp only [write_command_expect_ok_ack]
    rw [if_neg (by simp [h]), if_neg (by simp [hfst])]

/-- C5 witness: interleaved telemetry is discarded before a negative ack,
a success ack returns its line, and an empty stream times out. -/
theorem ack_wait_c5_witness :
    write_command_expect_ok_ack [str ("DATA t=1"), str ("*07")] =
        .rejected (str ("*07")) ∧
    write_command_expect_ok_ack [str ("*00")] = .okAck (str ("*00")) ∧
    write_command_expect_ok_ack [] = .timedOut := by
  refine ⟨?_, ?_, ack_wait_c5.2.2.2⟩
  · rw [ack_wait_c5.1 (str ("DATA t=1")) [str ("*07")] (by decide)]
    exact ack_wait_c5.2.2.1 (str ("*07")) [] (by decide) (by decide)
  · exact ack_wait_c5.2.1 (str ("*00")) [] (by decide) (by decide)

/-- C9: for every PowerPacket record, `map_telemetry_values` computes
`duty_cycle` as `pulse_width / pulse_period` when the period is positive
and 0 otherwise, and `process_value = current_power * duty_cycle`; for
`pulse_period ≤ 0` (in particular 0) both are 0 and no division error can
occur (the division is guarded by the positivity test). -/
theorem duty_cycle_c9 (t : Option ℚ) (ip cp pw pp : ℚ) (st : PyStr) :
    ∃ e, (map_telemetry_values (.power t ip cp pw pp st)).extras = some e ∧
      e.duty_cycle = (if 0 < pp then pw / pp else 0) ∧
      (map_telemetry_values (.power t ip cp pw pp st)).process_value = cp * e.duty_cycle ∧
      (pp ≤ 0 → e.duty_cycle = 0 ∧
        (map_telemetry_values (.power t ip cp pw pp st)).process_value = 0) := by
  refine ⟨_, rfl, rfl, rfl, fun h => ?_⟩
  constructor
  · show (if 0 < pp then pw / pp else 0) = 0
    rw [if_neg (not_lt.mpr h)]
  · show cp * (if 0 < pp then pw / pp else 0) = 0
    rw [if_neg (not_lt.mpr h), mul_zero]

/-- C9 witness: `pulse_period = 0` yields duty cycle 0 and process value 0. -/
theorem duty_cycle_c9_witness :
    ∃ e, (map_telemetry_values (Telemetry.power none 1 2 5 0 (str ("RUNNING")))).extras =
        some e ∧ e.duty_cycle = 0 ∧
      (map_telemetry_values
        (Telemetry.power none 1 2 5 0 (str ("RUNNING")))).process_value = 0 := by
  obtain ⟨e, he, _, _, himp⟩ := duty_cycle_c9 none 1 2 5 0 (str ("RUNNING"))
  obtain ⟨h0, h1⟩ := himp le_rfl
  exact ⟨e, he, h0, h1⟩

/-- C7 (code bug): a `$B0`-shaped line with a checksum mismatch is indeed
rejected as `none`, but `parse_telemetry_line` is *not* total on noise —
the key/value branch calls `float()` on every regex-matched value token,
and the line `"x=e"` (token "e" matches the class `[0-9.eE+-]+`) raises an
uncaught `ValueError`, contradicting "never raises". -/
theorem telemetry_line_raises_c7 :
    parse_telemetry_line (str ("$B000000001:00000002:00000003:00000004FF")) = .ok none ∧
    parse_telemetry_line (str ("x=e")) = .error (.floatValue (str ("e"))) := by
  refine ⟨by decide, by decide⟩

/-- C4 counterexample: on an `ERR` line `collect_trial_data` raises
(`RuntimeError(line)` — `TrialResult.deviceError` here), which carries only
the line text: the telemetry sample collected before the error line is not
delivered to the caller, contrary to the claim. -/
theorem collector_err_c4_counterexample :
    collect_trial_data
      [str ("initial_power=1 current_power=2 pulse_period=10 pulse_width=5"),
        str ("ERR bad state")] none true =
      TrialResult.deviceError (str ("ERR bad state")) := by decide

/-- C4 amended: when the collector reads a line that is not telemetry, not
an `OK DONE` sentinel, and begins with `ERR`, collection stops immediately
with a device error carrying the stripped line text — regardless of (and
discarding) whatever samples were accumulated before it. -/
theorem collector_err_stops_c4 (si : Option ℚ) (stop : Bool) (tA yA uA : List ℚ)
    (stA : List PyStr) (idx : Nat) (line : PyStr) (rest : List PyStr)
    (h1 : parse_telemetry_line (pyStrip line) = .ok none)
    (h2 : pyStartsWith (str ("OK DONE")) (pyStrip line) = false)
    (h3 : pyStartsWith (str ("ERR")) (pyStrip line) = true) :
    collectLoop si stop tA yA uA stA idx (line :: rest) =
      .deviceError (pyStrip line) := by
  simp only [collectLoop, h1]
  rw [if_neg (by simp [h2]), if_pos h3]

/-- C4 amended, witness: an `ERR` line stops a collector that already
holds one sample, and the result carries only the line. -/
theorem collector_err_stops_c4_witness :
    collectLoop none true [0] [1] [5] [str ("RUNNING")] 1 [str ("ERR x")] =
      TrialResult.deviceError (str ("ERR x")) := by
  rw [collector_err_stops_c4 none true [0] [1] [5] [str ("RUNNING")] 1
    (str ("ERR x")) [] (by decide) (by decide) (by decide)]
  decide

lemma pidDecodeFields_len (fs : List PyStr) (h : fs.length ≠ 8) :
    pidDecodeFields fs = .error (.fieldCount fs.length) := by
  rcases fs with _ | ⟨a0, _ | ⟨a1, _ | ⟨a2, _ | ⟨a3, _ | ⟨a4, _ |
    ⟨a5, _ | ⟨a6, _ | ⟨a7, rest⟩⟩⟩⟩⟩⟩⟩⟩
  · rfl
  · rfl
  · rfl
  · rfl
  · rfl
  · rfl
  · rfl
  · rfl
  · cases rest with
    | nil => exact absurd rfl h
    | cons b t => rfl

lemma pidDecodeFields_some (t0 t1 t2 t3 t4 t5 t6 t7 : PyStr)
    (v0 v1 v2 v3 v4 v5 v6 v7 : PyFloatVal)
    (h0 : pyFloat? t0 = some v0) (h1 : pyFloat? t1 = some v1)
    (h2 : pyFloat? t2 = some v2) (h3 : pyFloat? t3 = some v3)
    (h4 : pyFloat? t4 = some v4) (h5 : pyFloat? t5 = some v5)
    (h6 : pyFloat? t6 = some v6) (h7 : pyFloat? t7 = some v7) :
    pidDecodeFields [t0, t1, t2, t3, t4, t5, t6, t7] =
      .ok ⟨v0, v1, v2, v3, v4, v5, v6, v7⟩ := by
  simp only [pidDecodeFields, h0, h1, h2, h3, h4, h5, h6, h7]

lemma pidDecodeFields_none (t0 t1 t2 t3 t4 t5 t6 t7 : PyStr)
    (h : pyFloat? t0 = none ∨ pyFloat? t1 = none ∨ pyFloat? t2 = none ∨
      pyFloat? t3 = none ∨ pyFloat? t4 = none ∨ pyFloat? t5 = none ∨
      pyFloat? t6 = none ∨ pyFloat? t7 = none) :
    pidDecodeFields [t0, t1, t2, t3, t4, t5, t6, t7] = .error .fieldFormat := by
  rcases e0 : pyFloat? t0 with _ | v0
  · simp [pidDecodeFields, e0]
  rcases e1 : pyFloat? t1 with _ | v1
  · simp [pidDecodeFields, e0, e1]
  rcases e2 : pyFloat? t2 with _ | v2
  · simp [pidDecodeFields, e0, e1, e2]
  rcases e3 : pyFloat? t3 with _ | v3
  · simp [pidDecodeFields, e0, e1, e2, e3]
  rcases e4 : pyFloat? t4 with _ | v4
  · simp [pidDecodeFields, e0, e1, e2, e3, e4]
  rcases e5 : pyFloat? t5 with _ | v5
  · simp [pidDecodeFields, e0, e1, e2, e3, e4, e5]
  rcases e6 : pyFloat? t6 with _ | v6
  · simp [pidDecodeFields, e0, e1, e2, e3, e4, e5, e6]
  rcases e7 : pyFloat? t7 with _ | v7
  · simp [pidDecodeFields, e0, e1, e2, e3, e4, e5, e6, e7]
  rcases h with h|h|h|h|h|h|h|h <;> simp_all

lemma parse_pid_reply_eval (D : PyStr) (r : Nat)
    (hD : ∀ c ∈ D, isNotCRLF c = true) (hlenD : 5 ≤ D.length) (hr : r < 256) :
    parse_pid_reply (36 :: 66 :: 54 :: (D ++ (toHex2 r ++ [13, 10]))) =
      if ((D.sum % 256 : Nat) : Int) ≠ (r : Int) then
        .error (.checksumMismatch (D.sum % 256) (r : Int))
      else pidDecodeFields (pidTokens D) := by
  have hmid : ∀ c ∈ 66 :: 54 :: (D ++ toHex2 r), isNotCRLF c = true := by
    intro c hc
    rcases List.mem_cons.mp hc with h | h
    · subst h; rfl
    rcases List.mem_cons.mp h with h | h
    · subst h; rfl
    rcases List.mem_append.mp h with h1 | h1
    · exact hD c h1
    · exact isNotCRLF_of c (by have := toHex2_ranges r hr c h1; omega)
  have hframed : is_framed_command (36 :: 66 :: 54 :: (D ++ (toHex2 r ++ [13, 10]))) =
      true := by
    have := is_framed_mk (66 :: 54 :: (D ++ toHex2 r)) hmid
    simpa [List.append_assoc] using this
  have hpkt : (36 :: 66 :: 54 :: (D ++ (toHex2 r ++ [13, 10]))).dropLast.dropLast =
      36 :: 66 :: 54 :: (D ++ toHex2 r) := by
    have := list_dropLast_two (36 :: 66 :: 54 :: (D ++ toHex2 r)) [13, 10] rfl
    simpa [List.append_assoc] using this
  have hpre : pyStartsWith (str ("$B6")) (36 :: 66 :: 54 :: (D ++ toHex2 r)) = true := by
    rw [show str ("$B6") = [36, 66, 54] from rfl]
    simp [pyStartsWith, List.isPrefixOf]
  have hrcs : (36 :: 66 :: 54 :: (D ++ toHex2 r)).drop
      ((36 :: 66 :: 54 :: (D ++ toHex2 r)).length - 2) = toHex2 r := by
    have := list_drop_sub_two (36 :: 66 :: 54 :: D) (toHex2 r) rfl
    simpa [List.append_assoc] using this
  have hdata : ((36 :: 66 :: 54 :: (D ++ toHex2 r)).drop 3).dropLast.dropLast = D := by
    rw [show (36 :: 66 :: 54 :: (D ++ toHex2 r)).drop 3 = D ++ toHex2 r from rfl]
    exact list_dropLast_two _ _ rfl
  simp only [parse_pid_reply]
  rw [hpkt]
  rw [if_neg (by simp [hframed])]
  rw [if_neg (by simp [hpre])]
  rw [if_neg (by simp [toHex2]; omega)]
  rw [hrcs, hdata]
  rw [pyIntHex_toHex2 r hr]

/-- C3: `parse_pid_reply` on a frame-shaped `$B6` packet (data region `D`
between the command id and the trailing 2-hex checksum, CRLF-free, length
≥ 5 so the packet passes the length floor) — (1) the checksum is computed
over exactly `D`, interior whitespace included, and any trailing checksum
value other than `sum(D) mod 256` fails with a checksum error; with a
correct checksum, the payload is whitespace-tokenized discarding empty
tokens, and (2) a token count other than 8 fails with a field-count error,
(3) exactly 8 float-parseable tokens decode to the fields `pw_kp, pw_ki,
pw_kd, pp_kp, pp_ki, pp_kd, holdoff, sample_interval` in that order, and
(4) 8 tokens with any non-numeric token fail with a field-format error. -/
theorem pid_reply_decode_c3 :
    (∀ (D : PyStr) (r : Nat), (∀ c ∈ D, isNotCRLF c = true) → 5 ≤ D.length → r < 256 →
      r ≠ D.sum % 256 →
      parse_pid_reply (36 :: 66 :: 54 :: (D ++ (toHex2 r ++ [13, 10]))) =
        .error (.checksumMismatch (D.sum % 256) (r : Int))) ∧
    (∀ D : PyStr, (∀ c ∈ D, isNotCRLF c = true) → 5 ≤ D.length →
      (pidTokens D).length ≠ 8 →
      parse_pid_reply (36 :: 66 :: 54 :: (D ++ (toHex2 (D.sum % 256) ++ [13, 10]))) =
        .error (.fieldCount (pidTokens D).length)) ∧
    (∀ (D t0 t1 t2 t3 t4 t5 t6 t7 : PyStr) (v0 v1 v2 v3 v4 v5 v6 v7 : PyFloatVal),
      (∀ c ∈ D, isNotCRLF c = true) → 5 ≤ D.length →
      pidTokens D = [t0, t1, t2, t3, t4, t5, t6, t7] →
      pyFloat? t0 = some v0 → pyFloat? t1 = some v1 → pyFloat? t2 = some v2 →
      pyFloat? t3 = some v3 → pyFloat? t4 = some v4 → pyFloat? t5 = some v5 →
      pyFloat? t6 = some v6 → pyFloat? t7 = some v7 →
      parse_pid_reply (36 :: 66 :: 54 :: (D ++ (toHex2 (D.sum % 256) ++ [13, 10]))) =
        .ok ⟨v0, v1, v2, v3, v4, v5, v6, v7⟩) ∧
    (∀ D t0 t1 t2 t3 t4 t5 t6 t7 : PyStr,
      (∀ c ∈ D, isNotCRLF c = true) → 5 ≤ D.length →
      pidTokens D = [t0, t1, t2, t3, t4, t5, t6, t7] →
      (∃ t ∈ pidTokens D, pyFloat? t = none) →
      parse_pid_reply (36 :: 66 :: 54 :: (D ++ (toHex2 (D.sum % 256) ++ [13, 10]))) =
        .error .fieldFormat) := by
  have hsum : ∀ D : PyStr, D.sum % 256 < 256 := fun D => Nat.mod_lt _ (by norm_num)
  refine ⟨?_, ?_, ?_, ?_⟩
  · intro D r hD hlen hr hne
    rw [parse_pid_reply_eval D r hD hlen hr, if_pos (by omega)]
  · intro D hD hlen hcount
    rw [parse_pid_reply_eval D (D.sum % 256) hD hlen (hsum D), if_neg (by omega)]
    exact pidDecodeFields_len _ hcount
  · intro D t0 t1 t2 t3 t4 t5 t6 t7 v0 v1 v2 v3 v4 v5 v6 v7 hD hlen htoks
      h0 h1 h2 h3 h4 h5 h6 h7
    rw [parse_pid_reply_eval D (D.sum % 256) hD hlen (hsum D), if_neg (by omega), htoks]
    exact pidDecodeFields_some t0 t1 t2 t3 t4 t5 t6 t7 v0 v1 v2 v3 v4 v5 v6 v7
      h0 h1 h2 h3 h4 h5 h6 h7
  · intro D t0 t1 t2 t3 t4 t5 t6 t7 hD hlen htoks hbad
    rw [parse_pid_reply_eval D (D.sum % 256) hD hlen (hsum D), if_neg (by omega), htoks]
    obtain ⟨t, ht, hnone⟩ := hbad
    rw [htoks] at ht
    apply pidDecodeFields_none
    simp only [List.mem_cons, List.not_mem_nil, or_false] at ht
    rcases ht with rfl|rfl|rfl|rfl|rfl|rfl|rfl|rfl <;> tauto

/-- C3 witness: a reply with irregular interior spacing and 8 numeric
tokens decodes to the named fields in order with the whitespace-preserving
checksum; a wrong checksum, a 7-token reply and a non-numeric token fail
with the respective errors. -/
theorem pid_reply_decode_c3_witness :
    parse_pid_reply (36 :: 66 :: 54 :: ((str (" 1 2  3 4 5 6 7 8")) ++
        (toHex2 ((str (" 1 2  3 4 5 6 7 8")).sum % 256) ++ [13, 10]))) =
      .ok ⟨.finite 1, .finite 2, .finite 3, .finite 4, .finite 5, .finite 6,
        .finite 7, .finite 8⟩ ∧
    parse_pid_reply (36 :: 66 :: 54 :: ((str (" 1 2  3 4 5 6 7 8")) ++
        (toHex2 0 ++ [13, 10]))) =
      .error (.checksumMismatch ((str (" 1 2  3 4 5 6 7 8")).sum % 256) 0) ∧
    parse_pid_reply (36 :: 66 :: 54 :: ((str ("1 2 3 4 5 6 7")) ++
        (toHex2 ((str ("1 2 3 4 5 6 7")).sum % 256) ++ [13, 10]))) =
      .error (.fieldCount 7) ∧
    parse_pid_reply (36 :: 66 :: 54 :: ((str ("1 2 3 4 5 6 7 e")) ++
        (toHex2 ((str ("1 2 3 4 5 6 7 e")).sum % 256) ++ [13, 10]))) =
      .error .fieldFormat := by
  refine ⟨?_, ?_, ?_, ?_⟩
  · exact pid_reply_decode_c3.2.2.1 (str (" 1 2  3 4 5 6 7 8"))
      (str ("1")) (str ("2")) (str ("3")) (str ("4")) (str ("5")) (str ("6")) (str ("7"))
      (str ("8"))
      (.finite 1) (.finite 2) (.finite 3) (.finite 4) (.finite 5) (.finite 6)
      (.finite 7) (.finite 8)
      (by decide) (by decide) (by decide) (by decide) (by decide) (by decide)
      (by decide) (by decide) (by decide) (by decide) (by decide)
  · have h := pid_reply_decode_c3.1 (str (" 1 2  3 4 5 6 7 8")) 0
      (by decide) (by decide) (by decide) (by decide)
    simpa using h
  · have h := pid_reply_decode_c3.2.1 (str ("1 2 3 4 5 6 7"))
      (by decide) (by decide) (by decide)
    rw [show (pidTokens (str ("1 2 3 4 5 6 7"))).length = 7 from by decide] at h
    exact h
  · exact pid_reply_decode_c3.2.2.2 (str ("1 2 3 4 5 6 7 e"))
      (str ("1")) (str ("2")) (str ("3")) (str ("4")) (str ("5")) (str ("6")) (str ("7"))
      (str ("e"))
      (by decide) (by decide) (by decide)
      ⟨str ("e"), by decide, by decide⟩
